import Mathlib

/-!
# dynssz: fastssz compatibility cache and the generic SSZ decoder

Verification development for the `dynssz` package.

* Part 1 embeds `fastssz.go`: the `fastsszCompatibility` record and the
  caching function `getFastsszCompatibility`.  Go's heap is made explicit:
  a `*fastsszCompatibility` is an address into the list of records allocated
  so far, and `nil` is `none`.
* Part 2 models the generic (reflection driven) unmarshal engine that
  `unmarshal_test.go` exercises with `NoFastSsz = true`.
-/

namespace dynssz

/-! ## Part 1: `fastssz.go` -/

/-- The three fastssz interfaces a type is tested against. -/
inductive FastsszInterface where
  | Marshaler
  | Unmarshaler
  | HashRoot
deriving DecidableEq, Repr

/-- Source: `var sszMarshalerType = reflect.TypeOf((*fastssz.Marshaler)(nil)).Elem()`. -/
def sszMarshalerType : FastsszInterface := FastsszInterface.Marshaler

/-- Source: `var sszUnmarshalerType = reflect.TypeOf((*fastssz.Unmarshaler)(nil)).Elem()`. -/
def sszUnmarshalerType : FastsszInterface := FastsszInterface.Unmarshaler

/-- Source: `var sszHashRootType = reflect.TypeOf((*fastssz.HashRoot)(nil)).Elem()`. -/
def sszHashRootType : FastsszInterface := FastsszInterface.HashRoot

/-- The part of package `reflect` used by `getFastsszCompatibility`, over an
abstract carrier `Ty` of `reflect.Type` values: `ptrTo t` is
`reflect.New(t).Type()`, the pointer type `*t`, and `implements t i` is
`t.Implements(i)`. -/
structure Reflect (Ty : Type) where
  ptrTo : Ty → Ty
  implements : Ty → FastsszInterface → Bool

/-- Source: `type fastsszCompatibility struct`, four booleans. -/
structure fastsszCompatibility where
  isMarshaler : Bool
  isUnmarshaler : Bool
  isHashRoot : Bool
  hasDynamicSpecValues : Bool
deriving DecidableEq, Repr

/-- The engine `DynSsz` together with the records its cache points to.

* `records`: every `fastsszCompatibility` allocated so far; the address of a
  record is its index, so a `*fastsszCompatibility` is an `Option Nat` with
  `none` for `nil`.
* `fastsszCompatCache`: the Go map `map[reflect.Type]*fastsszCompatibility`,
  read the way the source reads it (`m[k]` yields `nil` for a missing key).
* `rest`: all remaining engine state (the state `getSszSize` works on). -/
structure DynSsz (Ty σ : Type) where
  records : List fastsszCompatibility
  fastsszCompatCache : Ty → Option Nat
  rest : σ

/-- The type of the method `getSszSize`, which is declared outside `fastssz.go`
and is therefore a parameter of the development: given the target type and the
size hints it returns `(size, hasSpecVals, err)` and the updated remaining
engine state. It reads and writes `rest` only: the compatibility cache and its
records are touched by `getFastsszCompatibility` alone. `H` stands for
`sszSizeHint`, `ε` for Go's non-nil `error`s. -/
abbrev SizeResolver (Ty H ε σ : Type) : Type :=
  Ty → List H → σ → (Int × Bool × Option ε) × σ

section Compat

variable {Ty H ε σ : Type} [DecidableEq Ty]

/-- Source: `func (d *DynSsz) getFastsszCompatibility(targetType reflect.Type)
(*fastsszCompatibility, error)`. The result pair is `(record pointer, error)`
followed by the engine after the call. -/
def getFastsszCompatibility (R : Reflect Ty) (getSszSize : SizeResolver Ty H ε σ)
    (d : DynSsz Ty σ) (targetType : Ty) : (Option Nat × Option ε) × DynSsz Ty σ :=
  match d.fastsszCompatCache targetType with
  | some cachedCompatibility => ((some cachedCompatibility, none), d)
  | none =>
    match getSszSize targetType [] d.rest with
    | ((_, _, some err), rest1) =>
      ((none, some err), DynSsz.mk d.records d.fastsszCompatCache rest1)
    | ((_, hasSpecVals, none), rest1) =>
      let targetPtrType := R.ptrTo targetType
      let compatibility : fastsszCompatibility :=
        fastsszCompatibility.mk
          (R.implements targetPtrType sszMarshalerType)
          (R.implements targetPtrType sszUnmarshalerType)
          (R.implements targetPtrType sszHashRootType)
          hasSpecVals
      let p := d.records.length
      ((some p, none),
        DynSsz.mk (d.records ++ [compatibility])
          (Function.update d.fastsszCompatCache targetType (some p)) rest1)

/-- A sequence of `getFastsszCompatibility` calls on one engine, one call per
listed type, in order; the results are dropped and the final engine returned. -/
def queryAll (R : Reflect Ty) (getSszSize : SizeResolver Ty H ε σ) :
    DynSsz Ty σ → List Ty → DynSsz Ty σ
  | d, [] => d
  | d, U :: Us => queryAll R getSszSize (getFastsszCompatibility R getSszSize d U).2 Us

end Compat

/-! ### A small concrete engine, used to instantiate the theorems

Types are named by numbers; the pointer type of `t` is `t + 100`. -/

/-- Reflection data: `*1` implements only `Marshaler` (while the value type `1`
itself implements only `Unmarshaler` and `HashRoot`), `*2` implements all three
interfaces, no other type implements anything. -/
def exReflect : Reflect Nat :=
  Reflect.mk (fun t => t + 100) (fun t i =>
    match t, i with
    | 101, FastsszInterface.Marshaler => true
    | 1, FastsszInterface.Unmarshaler => true
    | 1, FastsszInterface.HashRoot => true
    | 102, _ => true
    | _, _ => false)

/-- A size resolver whose remaining state counts its calls: types `0` and `5`
are unsupported, type `2` carries dynamic spec values, all other types are plain. -/
def exGetSszSize : SizeResolver Nat Unit String Nat :=
  fun T _ n =>
    if T = 0 ∨ T = 5 then ((0, false, some "unsupported type"), n + 1)
    else ((8, decide (T = 2), none), n + 1)

/-- An engine holding one record, cached for type `5`. -/
def exEngine : DynSsz Nat Nat :=
  DynSsz.mk [fastsszCompatibility.mk true true true false]
    (fun T => if T = 5 then some 0 else none) 0

/-- A size resolver that fails on every type (and still counts its calls). -/
def exFailing : SizeResolver Nat Unit String Nat :=
  fun _ _ n => ((0, false, some "never"), n + 1)

/-! ## Part 2: the generic unmarshal engine exercised by `unmarshal_test.go`

`unmarshal_test.go` calls `NewDynSsz` and `UnmarshalSSZ`, which are declared
outside the two files embedded here. The engine is therefore modelled from the
package specification (sections 3, 4.2, 4.4 and 4.5): a resolved type descriptor
tree, the size profile of a descriptor, and the descriptor-driven marshal and
unmarshal walks. Buffers are lists of bytes, a byte being a natural number below
256; unsigned integers are natural numbers below `256 ^ width`. -/

/-- Modelled from the spec: the error taxonomy of section 7 (the package's error
values are not part of the source files covered here). -/
inductive SszError where
  | ConfigurationError
  | UnsupportedTypeError
  | HintMismatchError
  | LengthMismatchError
  | OffsetOrderError
  | OffsetRangeError
  | BufferTooShortError
  | TrailingDataError
deriving DecidableEq, Repr

/-- Modelled from the spec: the unsigned integer kinds named by the test matrix
(`uint8`, `uint16`, `uint32`, `uint64`); the kind dispatch of the engine is not
part of the source files covered here. -/
inductive UintKind where
  | u8
  | u16
  | u32
  | u64
deriving DecidableEq, Repr

/-- Modelled from the spec: "fixed size per natural width", in bytes (the size
table of the resolver is not part of the source files covered here). -/
def UintKind.width : UintKind → Nat
  | UintKind.u8 => 1
  | UintKind.u16 => 2
  | UintKind.u32 => 4
  | UintKind.u64 => 8

/-- Modelled from the spec: the resolved type descriptor tree of sections 3 and 9
(the descriptor type is not part of the source files covered here). `vector` is a
fixed-length array-like kind, which includes a slice whose size hint fixes its
length (`ssz-size:"5"`); `list` is a variable-length sequence; `container` is a
composite with its fields in declaration order. -/
inductive SszType where
  | bool
  | uint (k : UintKind)
  | vector (elem : SszType) (len : Nat)
  | list (elem : SszType)
  | container (fields : List SszType)
deriving Repr

/-- Modelled from the spec: the values the engine encodes and decodes (Go values
reached by reflection, which the source files covered here do not define): booleans,
unsigned integers, sequences (arrays and slices) and structs. -/
inductive SszValue where
  | bool (b : Bool)
  | uint (n : Nat)
  | seq (elems : List SszValue)
  | struct (fields : List SszValue)
deriving Repr

mutual
/-- Modelled from the spec: the size profile of section 4.2 (`getSszSize` is not
part of the source files covered here), `some n` for a fixed size of `n` bytes and `none`
for a dynamic type. Primitives have their natural width; a fixed-length kind is
fixed with size element size times length if its element is fixed; a
variable-length sequence is always dynamic; a composite is fixed iff all its
fields are, with the sum of the field sizes. -/
def sszSize : SszType → Option Nat
  | SszType.bool => some 1
  | SszType.uint k => some k.width
  | SszType.vector e n =>
    match sszSize e with
    | some s => some (s * n)
    | none => none
  | SszType.list _ => none
  | SszType.container fs => sszSizeFields fs
/-- Modelled from the spec: the size profile of a composite's field list
(section 4.2, rule 4; `getSszSize` is not part of the source files covered here). -/
def sszSizeFields : List SszType → Option Nat
  | [] => some 0
  | f :: fs =>
    match sszSize f, sszSizeFields fs with
    | some a, some b => some (a + b)
    | _, _ => none
end

/-- The little-endian value of a byte list: the sum of `b[i] * 256 ^ i`. -/
def leDecode : List Nat → Nat
  | [] => 0
  | b :: bs => b + 256 * leDecode bs

/-- The `w` little-endian bytes of `n` (of `n mod 256 ^ w`). -/
def leEncode : Nat → Nat → List Nat
  | 0, _ => []
  | w + 1, n => n % 256 :: leEncode w (n / 256)

/-- The bytes of `buf` from position `lo` up to, not including, position `hi`. -/
def slice (buf : List Nat) (lo hi : Nat) : List Nat :=
  (buf.drop lo).take (hi - lo)

/-- Modelled from the spec: a 4-byte little-endian offset read at position `pos`
(section 4.5; the decoder is not part of the source files covered here). -/
def readOffset (buf : List Nat) (pos : Nat) : Nat :=
  leDecode (slice buf pos (pos + 4))

/-- Apply a fallible function to every element, stopping at the first error. -/
def mapExcept {α β ε : Type} (f : α → Except ε β) : List α → Except ε (List β)
  | [] => Except.ok []
  | a :: as =>
    match f a with
    | Except.error e => Except.error e
    | Except.ok b =>
      match mapExcept f as with
      | Except.error e => Except.error e
      | Except.ok bs => Except.ok (b :: bs)

/-- Modelled from the spec: the minimum fixed size of a composite (section 4.5;
the decoder is not part of the source files covered here): the size of every fixed field
and 4 bytes of offset for every dynamic field. -/
def fixedRegionSize : List (Option Nat) → Nat
  | [] => 0
  | some s :: r => s + fixedRegionSize r
  | none :: r => 4 + fixedRegionSize r

/-- Modelled from the spec: "read fixed fields by cursor advance; read each
dynamic field's 4-byte offset" (section 4.5; the decoder is not part of the
embedded files). Returns the offsets of the dynamic fields in field order. -/
def readOffsets (buf : List Nat) : Nat → List (Option Nat) → List Nat
  | _, [] => []
  | pos, some s :: r => readOffsets buf (pos + s) r
  | pos, none :: r => readOffset buf pos :: readOffsets buf (pos + 4) r

/-- Modelled from the spec: "validate offsets non-decreasing and ≤ buffer length
(OffsetOrderError / OffsetRangeError otherwise)" (section 4.5; the decoder is not
part of the source files covered here). -/
def checkOffsets (len : Nat) : List Nat → Except SszError Unit
  | [] => Except.ok ()
  | [o] => if len < o then Except.error SszError.OffsetRangeError else Except.ok ()
  | o :: o2 :: r =>
    if len < o then Except.error SszError.OffsetRangeError
    else if o2 < o then Except.error SszError.OffsetOrderError
    else checkOffsets len (o2 :: r)

/-- Modelled from the spec: the byte slice of every field (section 4.5; the
decoder is not part of the source files covered here): a fixed field is the next `s` bytes
at the cursor, a dynamic field is the "slice between consecutive offsets (last
field runs to buffer end)". The third argument lists the offsets not yet used. -/
def fieldSlices (buf : List Nat) : Nat → List (Option Nat) → List Nat → List (List Nat)
  | _, [], _ => []
  | pos, some s :: r, offs => slice buf pos (pos + s) :: fieldSlices buf (pos + s) r offs
  | pos, none :: r, o :: o2 :: offs => slice buf o o2 :: fieldSlices buf (pos + 4) r (o2 :: offs)
  | pos, none :: r, [o] => slice buf o buf.length :: fieldSlices buf (pos + 4) r []
  | pos, none :: r, [] => [] :: fieldSlices buf (pos + 4) r []

/-- Modelled from the spec: the split of a buffer laid out as the given fields
(section 4.5; the decoder is not part of the source files covered here): too short a buffer
is a `BufferTooShortError`, then the offsets are read and validated, then the
buffer is sliced. -/
def splitFields (sizes : List (Option Nat)) (buf : List Nat) :
    Except SszError (List (List Nat)) :=
  if buf.length < fixedRegionSize sizes then Except.error SszError.BufferTooShortError
  else
    match checkOffsets buf.length (readOffsets buf 0 sizes) with
    | Except.error e => Except.error e
    | Except.ok _ => Except.ok (fieldSlices buf 0 sizes (readOffsets buf 0 sizes))

/-- Modelled from the spec: the number of elements of a variable-length sequence
held by a buffer (sections 4.4 and 4.5; the decoder is not part of the embedded
files): for fixed-size elements the length is implicit in the buffer length (a
buffer that is not a whole number of elements is rejected), for dynamic elements
the offset table starts the buffer, so its first offset gives its length. -/
def listCount (elemSize : Option Nat) (buf : List Nat) : Except SszError Nat :=
  match elemSize with
  | some s =>
    if buf.length % s = 0 then Except.ok (buf.length / s)
    else Except.error SszError.TrailingDataError
  | none =>
    if buf.length = 0 then Except.ok 0
    else if buf.length < 4 then Except.error SszError.BufferTooShortError
    else Except.ok (readOffset buf 0 / 4)

mutual
/-- Modelled from the spec: the generic unmarshal walk of section 4.5
(`UnmarshalSSZ` and its helpers are not part of the source files covered here), decoding
the whole of `buf` as a value of the described type. -/
def unmarshalValue : SszType → List Nat → Except SszError SszValue
  | SszType.bool, buf =>
    if buf.length < 1 then Except.error SszError.BufferTooShortError
    else Except.ok (SszValue.bool (buf.headD 0 == 1))
  | SszType.uint k, buf =>
    if buf.length < k.width then Except.error SszError.BufferTooShortError
    else Except.ok (SszValue.uint (leDecode (buf.take k.width)))
  | SszType.vector e n, buf =>
    match splitFields (List.replicate n (sszSize e)) buf with
    | Except.error err => Except.error err
    | Except.ok slices =>
      match mapExcept (unmarshalValue e) slices with
      | Except.error err => Except.error err
      | Except.ok vs => Except.ok (SszValue.seq vs)
  | SszType.list e, buf =>
    match listCount (sszSize e) buf with
    | Except.error err => Except.error err
    | Except.ok n =>
      match splitFields (List.replicate n (sszSize e)) buf with
      | Except.error err => Except.error err
      | Except.ok slices =>
        match mapExcept (unmarshalValue e) slices with
        | Except.error err => Except.error err
        | Except.ok vs => Except.ok (SszValue.seq vs)
  | SszType.container fs, buf =>
    match splitFields (fs.map sszSize) buf with
    | Except.error err => Except.error err
    | Except.ok slices =>
      match unmarshalFields fs slices with
      | Except.error err => Except.error err
      | Except.ok vs => Except.ok (SszValue.struct vs)
/-- Modelled from the spec: "recursively unmarshal each slice" for the fields of
a composite, in declaration order (section 4.5; the decoder is not part of the
embedded files). -/
def unmarshalFields : List SszType → List (List Nat) → Except SszError (List SszValue)
  | [], _ => Except.ok []
  | _ :: _, [] => Except.error SszError.BufferTooShortError
  | f :: fs, b :: bs =>
    match unmarshalValue f b with
    | Except.error err => Except.error err
    | Except.ok v =>
      match unmarshalFields fs bs with
      | Except.error err => Except.error err
      | Except.ok vs => Except.ok (v :: vs)
end

/-- Modelled from the spec: the fixed region written by the marshal walk of
section 4.4 (the encoder is not part of the source files covered here): fixed fields in
place, and for every dynamic field the 4-byte little-endian offset of its
payload relative to the start of this encoding; `off` is the position of the
next dynamic payload. -/
def layoutFixed : List (Option Nat) → List (List Nat) → Nat → List Nat
  | some _ :: r, enc :: encs, off => enc ++ layoutFixed r encs off
  | none :: r, enc :: encs, off => leEncode 4 off ++ layoutFixed r encs (off + enc.length)
  | _, _, _ => []

/-- Modelled from the spec: the dynamic payloads, emitted in field order after
the fixed region (section 4.4; the encoder is not part of the source files covered here). -/
def layoutDynamic : List (Option Nat) → List (List Nat) → List Nat
  | some _ :: r, _ :: encs => layoutDynamic r encs
  | none :: r, enc :: encs => enc ++ layoutDynamic r encs
  | _, _ => []

/-- Modelled from the spec: the encoding of a composite or sequence from the
encodings of its parts (section 4.4; the encoder is not part of the embedded
files): the fixed region followed by the dynamic payloads. -/
def layout (sizes : List (Option Nat)) (encs : List (List Nat)) : List Nat :=
  layoutFixed sizes encs (fixedRegionSize sizes) ++ layoutDynamic sizes encs

mutual
/-- Modelled from the spec: the generic marshal walk of section 4.4
(`MarshalSSZ` and its helpers are not part of the source files covered here). A runtime
length that disagrees with a fixed descriptor is a `LengthMismatchError`; a value
that is not of the described kind is an `UnsupportedTypeError`. -/
def marshalValue : SszType → SszValue → Except SszError (List Nat)
  | SszType.bool, SszValue.bool b => Except.ok [if b then 1 else 0]
  | SszType.uint k, SszValue.uint n => Except.ok (leEncode k.width n)
  | SszType.vector e n, SszValue.seq vs =>
    if vs.length ≠ n then Except.error SszError.LengthMismatchError
    else
      match mapExcept (marshalValue e) vs with
      | Except.error err => Except.error err
      | Except.ok encs => Except.ok (layout (List.replicate n (sszSize e)) encs)
  | SszType.list e, SszValue.seq vs =>
    match mapExcept (marshalValue e) vs with
    | Except.error err => Except.error err
    | Except.ok encs => Except.ok (layout (List.replicate vs.length (sszSize e)) encs)
  | SszType.container fs, SszValue.struct vs =>
    match marshalFields fs vs with
    | Except.error err => Except.error err
    | Except.ok encs => Except.ok (layout (fs.map sszSize) encs)
  | _, _ => Except.error SszError.UnsupportedTypeError
/-- Modelled from the spec: the encodings of the fields of a composite, in
declaration order (section 4.4; the encoder is not part of the source files covered here). -/
def marshalFields : List SszType → List SszValue → Except SszError (List (List Nat))
  | [], [] => Except.ok []
  | f :: fs, v :: vs =>
    match marshalValue f v with
    | Except.error err => Except.error err
    | Except.ok enc =>
      match marshalFields fs vs with
      | Except.error err => Except.error err
      | Except.ok encs => Except.ok (enc :: encs)
  | _, _ => Except.error SszError.LengthMismatchError
end

/-- Modelled from the spec: the fixed-layout codec of section 6 for one type, an
external collaborator (fastssz generated code, not part of the source files covered here). -/
structure FastCodec where
  marshal : SszValue → Except SszError (List Nat)
  unmarshal : List Nat → Except SszError SszValue

/-- Modelled from the spec: the engine options that select the code path
(sections 4.5 and 6; `NewDynSsz` and the `DynSsz` declaration are not part of the
embedded files). `NoFastSsz` forces the generic path unconditionally; `fastssz t`
is the fixed-layout codec of `t` when `t` is eligible for the fast path. -/
structure Engine where
  NoFastSsz : Bool
  fastssz : SszType → Option FastCodec

/-- Modelled from the spec: the generic path of `UnmarshalSSZ` at top level
(section 4.5; the function is not part of the source files covered here): a nominally fixed
type consumes exactly its fixed size (`BufferTooShortError` below it,
`TrailingDataError` above it), a dynamic type consumes the entire buffer. -/
def unmarshalGeneric (t : SszType) (buf : List Nat) : Except SszError SszValue :=
  match sszSize t with
  | some s =>
    if buf.length < s then Except.error SszError.BufferTooShortError
    else if s < buf.length then Except.error SszError.TrailingDataError
    else unmarshalValue t buf
  | none => unmarshalValue t buf

/-- Modelled from the spec: `UnmarshalSSZ` (section 4.5; the function is called by
`TestUnmarshal` but is not part of the source files covered here): "fast-path eligible →
delegate", otherwise the generic walk. -/
def UnmarshalSSZ (d : Engine) (t : SszType) (buf : List Nat) : Except SszError SszValue :=
  if d.NoFastSsz then unmarshalGeneric t buf
  else
    match d.fastssz t with
    | some codec => codec.unmarshal buf
    | none => unmarshalGeneric t buf

/-- Modelled from the spec: `MarshalSSZ` (section 4.4; the function is not part of
the source files covered here): "fast-path eligible → delegate", otherwise the generic walk. -/
def MarshalSSZ (d : Engine) (t : SszType) (v : SszValue) : Except SszError (List Nat) :=
  if d.NoFastSsz then marshalValue t v
  else
    match d.fastssz t with
    | some codec => codec.marshal v
    | none => marshalValue t v

/-- The engine built by `TestUnmarshal`: `NewDynSsz(nil)` with `NoFastSsz = true`;
none of the test types has a fixed-layout codec. -/
def testEngine : Engine := Engine.mk true (fun _ => none)

/-- The struct type of the second "complex types" row of the test matrix:
`struct { F1 bool; F2 []uint8; F3 []uint16` with `ssz-size:"5"` `; F4 uint32 }`. -/
def mixedStruct : SszType :=
  SszType.container [SszType.bool, SszType.list (SszType.uint UintKind.u8),
    SszType.vector (SszType.uint UintKind.u16) 5, SszType.uint UintKind.u32]

/-- Modelled from the spec: the element type `slug_DynStruct1` of the fourth
"complex types" row of the test matrix, whose declaration is in a test file that
is not part of the source files covered here: a dynamic-size struct made of a bool followed
by a variable-length byte list, as the row's literals `{true, []uint8{4}}` and
its expected bytes show. -/
def dynStruct1 : SszType :=
  SszType.container [SszType.bool, SszType.list (SszType.uint UintKind.u8)]

/-- The struct type of the fourth "complex types" row of the test matrix:
`struct { F1 uint8; F2 []slug_DynStruct1` with `ssz-size:"3"` `; F3 uint8 }`. -/
def twoLevelStruct : SszType :=
  SszType.container [SszType.uint UintKind.u8, SszType.vector dynStruct1 3,
    SszType.uint UintKind.u8]


/-! ## Theorems, part 1 -/

section CompatTheorems

variable {Ty H ε σ : Type} [DecidableEq Ty]

/-- On a cache hit the engine is returned as it was and the cached pointer is the result. -/
theorem getFastsszCompatibility_hit (R : Reflect Ty) (g : SizeResolver Ty H ε σ)
    (d : DynSsz Ty σ) (T : Ty) (c : Nat) (h : d.fastsszCompatCache T = some c) :
    getFastsszCompatibility R g d T = ((some c, none), d) := by
  simp [getFastsszCompatibility, h]

/-- On a miss with a failing size resolution only `rest` changes. -/
theorem getFastsszCompatibility_miss_err (R : Reflect Ty) (g : SizeResolver Ty H ε σ)
    (d : DynSsz Ty σ) (T : Ty) (e : ε) (h : d.fastsszCompatCache T = none)
    (he : (g T [] d.rest).1.2.2 = some e) :
    getFastsszCompatibility R g d T =
      ((none, some e), DynSsz.mk d.records d.fastsszCompatCache (g T [] d.rest).2) := by
  unfold getFastsszCompatibility
  rw [h]
  rcases hg : g T [] d.rest with ⟨⟨sz, sv, err⟩, r1⟩
  rw [hg] at he
  simp only at he
  subst he
  rfl

/-- On a miss with a successful size resolution a fresh record is allocated and cached. -/
theorem getFastsszCompatibility_miss_ok (R : Reflect Ty) (g : SizeResolver Ty H ε σ)
    (d : DynSsz Ty σ) (T : Ty) (h : d.fastsszCompatCache T = none)
    (he : (g T [] d.rest).1.2.2 = none) :
    getFastsszCompatibility R g d T =
      ((some d.records.length, none),
        DynSsz.mk
          (d.records ++ [fastsszCompatibility.mk
            (R.implements (R.ptrTo T) sszMarshalerType)
            (R.implements (R.ptrTo T) sszUnmarshalerType)
            (R.implements (R.ptrTo T) sszHashRootType)
            (g T [] d.rest).1.2.1])
          (Function.update d.fastsszCompatCache T (some d.records.length))
          (g T [] d.rest).2) := by
  unfold getFastsszCompatibility
  rw [h]
  rcases hg : g T [] d.rest with ⟨⟨sz, sv, err⟩, r1⟩
  rw [hg] at he
  simp only at he
  subst he
  rfl

/-- The three ways a call can go: cache hit, failed size resolution, fresh record. -/
theorem getFastsszCompatibility_cases (R : Reflect Ty) (g : SizeResolver Ty H ε σ)
    (d : DynSsz Ty σ) (T : Ty) :
    (∃ c, d.fastsszCompatCache T = some c ∧
        getFastsszCompatibility R g d T = ((some c, none), d)) ∨
    (∃ e, d.fastsszCompatCache T = none ∧ (g T [] d.rest).1.2.2 = some e ∧
        getFastsszCompatibility R g d T =
          ((none, some e), DynSsz.mk d.records d.fastsszCompatCache (g T [] d.rest).2)) ∨
    (d.fastsszCompatCache T = none ∧ (g T [] d.rest).1.2.2 = none ∧
        getFastsszCompatibility R g d T =
          ((some d.records.length, none),
            DynSsz.mk
              (d.records ++ [fastsszCompatibility.mk
                (R.implements (R.ptrTo T) sszMarshalerType)
                (R.implements (R.ptrTo T) sszUnmarshalerType)
                (R.implements (R.ptrTo T) sszHashRootType)
                (g T [] d.rest).1.2.1])
              (Function.update d.fastsszCompatCache T (some d.records.length))
              (g T [] d.rest).2)) := by
  cases h : d.fastsszCompatCache T with
  | some c => exact Or.inl ⟨c, rfl, getFastsszCompatibility_hit R g d T c h⟩
  | none =>
    cases he : (g T [] d.rest).1.2.2 with
    | some e => exact Or.inr (Or.inl ⟨e, rfl, rfl, getFastsszCompatibility_miss_err R g d T e h he⟩)
    | none => exact Or.inr (Or.inr ⟨rfl, rfl, getFastsszCompatibility_miss_ok R g d T h he⟩)

/-- A call for `U` leaves the cache entry of every other type as it was. -/
theorem getFastsszCompatibility_cache_other (R : Reflect Ty) (g : SizeResolver Ty H ε σ)
    (d : DynSsz Ty σ) (U T : Ty) (hne : T ≠ U) :
    (getFastsszCompatibility R g d U).2.fastsszCompatCache T = d.fastsszCompatCache T := by
  rcases getFastsszCompatibility_cases R g d U with ⟨c, _, h⟩ | ⟨e, _, _, h⟩ | ⟨_, _, h⟩
  · rw [h]
  · rw [h]
  · rw [h]; exact Function.update_noteq hne _ _

/-- A call for `U` whose entry is already non-nil returns the engine unchanged. -/
theorem getFastsszCompatibility_state_of_cached (R : Reflect Ty) (g : SizeResolver Ty H ε σ)
    (d : DynSsz Ty σ) (U : Ty) (h : d.fastsszCompatCache U ≠ none) :
    (getFastsszCompatibility R g d U).2 = d := by
  rcases getFastsszCompatibility_cases R g d U with ⟨c, _, h1⟩ | ⟨e, h0, _, _⟩ | ⟨h0, _, _⟩
  · rw [h1]
  · exact absurd h0 h
  · exact absurd h0 h

/-- A non-nil cache entry survives any single call. -/
theorem getFastsszCompatibility_cache_keeps (R : Reflect Ty) (g : SizeResolver Ty H ε σ)
    (d : DynSsz Ty σ) (U T : Ty) (p : Nat) (hp : d.fastsszCompatCache T = some p) :
    (getFastsszCompatibility R g d U).2.fastsszCompatCache T = some p := by
  by_cases hTU : T = U
  · subst hTU
    rw [getFastsszCompatibility_state_of_cached R g d T (by rw [hp]; exact Option.some_ne_none p)]
    exact hp
  · rw [getFastsszCompatibility_cache_other R g d U T hTU]
    exact hp

/-- Allocated records are never modified: a call only appends to `records`. -/
theorem getFastsszCompatibility_records_keep (R : Reflect Ty) (g : SizeResolver Ty H ε σ)
    (d : DynSsz Ty σ) (U : Ty) (p : Nat) (r : fastsszCompatibility)
    (hr : d.records[p]? = some r) :
    (getFastsszCompatibility R g d U).2.records[p]? = some r := by
  rcases getFastsszCompatibility_cases R g d U with ⟨c, _, h⟩ | ⟨e, _, _, h⟩ | ⟨_, _, h⟩
  · rw [h]; exact hr
  · rw [h]; exact hr
  · rw [h]
    have hlt : p < d.records.length := by
      rcases List.getElem?_eq_some.mp hr with ⟨hlt, _⟩
      exact hlt
    simp only
    rw [List.getElem?_append_left hlt]
    exact hr

/-- A non-nil cache entry survives any sequence of calls. -/
theorem queryAll_cache_keeps (R : Reflect Ty) (g : SizeResolver Ty H ε σ)
    (Us : List Ty) (d : DynSsz Ty σ) (T : Ty) (p : Nat)
    (hp : d.fastsszCompatCache T = some p) :
    (queryAll R g d Us).fastsszCompatCache T = some p := by
  induction Us generalizing d with
  | nil => exact hp
  | cons U Us ih =>
    exact ih (getFastsszCompatibility R g d U).2 (getFastsszCompatibility_cache_keeps R g d U T p hp)

/-- An allocated record keeps its contents over any sequence of calls. -/
theorem queryAll_records_keep (R : Reflect Ty) (g : SizeResolver Ty H ε σ)
    (Us : List Ty) (d : DynSsz Ty σ) (p : Nat) (r : fastsszCompatibility)
    (hr : d.records[p]? = some r) :
    (queryAll R g d Us).records[p]? = some r := by
  induction Us generalizing d with
  | nil => exact hr
  | cons U Us ih =>
    exact ih (getFastsszCompatibility R g d U).2 (getFastsszCompatibility_records_keep R g d U p r hr)

/-- C1 (cache hit): when the cache holds a non-nil record `c` for `T`, the call
returns `(c, nil)` and the whole engine (cache, records and the state of the size
resolver) is exactly as before; this holds for every size resolver, so also for
one that fails on `T`, and the resolver is not run (its state is untouched). -/
theorem C1_cache_hit (R : Reflect Ty) (getSszSize : SizeResolver Ty H ε σ)
    (d : DynSsz Ty σ) (T : Ty) (c : Nat) (h : d.fastsszCompatCache T = some c) :
    (getFastsszCompatibility R getSszSize d T).1 = (some c, none) ∧
    (getFastsszCompatibility R getSszSize d T).2.fastsszCompatCache = d.fastsszCompatCache ∧
    (getFastsszCompatibility R getSszSize d T).2.records = d.records ∧
    (getFastsszCompatibility R getSszSize d T).2.rest = d.rest := by
  rw [getFastsszCompatibility_hit R getSszSize d T c h]
  exact ⟨rfl, rfl, rfl, rfl⟩

/-- Witness for C1: type `5` is cached in `exEngine` although its size resolution fails. -/
theorem C1_cache_hit_witness :
    exEngine.fastsszCompatCache 5 = some 0 ∧
    (exGetSszSize 5 [] exEngine.rest).1.2.2 = some "unsupported type" ∧
    (exGetSszSize 5 [] exEngine.rest).2 = 1 ∧
    ((getFastsszCompatibility exReflect exGetSszSize exEngine 5).1 = (some 0, none) ∧
     (getFastsszCompatibility exReflect exGetSszSize exEngine 5).2.fastsszCompatCache
        = exEngine.fastsszCompatCache ∧
     (getFastsszCompatibility exReflect exGetSszSize exEngine 5).2.records = exEngine.records ∧
     (getFastsszCompatibility exReflect exGetSszSize exEngine 5).2.rest = exEngine.rest) :=
  ⟨rfl, rfl, rfl, C1_cache_hit exReflect exGetSszSize exEngine 5 0 rfl⟩

/-- C2 (capability flags): for an uncached type whose size resolution succeeds,
the call returns a non-nil record whose `isMarshaler`, `isUnmarshaler` and
`isHashRoot` are exactly whether the pointer type `*T` implements the Marshaler,
Unmarshaler and HashRoot interface, each flag from its own interface alone. -/
theorem C2_capability_flags (R : Reflect Ty) (getSszSize : SizeResolver Ty H ε σ)
    (d : DynSsz Ty σ) (T : Ty) (h : d.fastsszCompatCache T = none)
    (hok : (getSszSize T [] d.rest).1.2.2 = none) :
    ∃ p r, (getFastsszCompatibility R getSszSize d T).1 = (some p, none) ∧
      (getFastsszCompatibility R getSszSize d T).2.records[p]? = some r ∧
      r.isMarshaler = R.implements (R.ptrTo T) sszMarshalerType ∧
      r.isUnmarshaler = R.implements (R.ptrTo T) sszUnmarshalerType ∧
      r.isHashRoot = R.implements (R.ptrTo T) sszHashRootType := by
  rw [getFastsszCompatibility_miss_ok R getSszSize d T h hok]
  exact ⟨d.records.length,
    fastsszCompatibility.mk
      (R.implements (R.ptrTo T) sszMarshalerType)
      (R.implements (R.ptrTo T) sszUnmarshalerType)
      (R.implements (R.ptrTo T) sszHashRootType)
      (getSszSize T [] d.rest).1.2.1,
    rfl, by simp, rfl, rfl, rfl⟩

/-- Witness for C2: type `1`, whose pointer form implements Marshaler only while
the value type itself implements Unmarshaler and HashRoot only. -/
theorem C2_capability_flags_witness :
    exReflect.implements (exReflect.ptrTo 1) sszMarshalerType = true ∧
    exReflect.implements (exReflect.ptrTo 1) sszUnmarshalerType = false ∧
    exReflect.implements 1 sszMarshalerType = false ∧
    exReflect.implements 1 sszUnmarshalerType = true ∧
    ∃ p r, (getFastsszCompatibility exReflect exGetSszSize exEngine 1).1 = (some p, none) ∧
      (getFastsszCompatibility exReflect exGetSszSize exEngine 1).2.records[p]? = some r ∧
      r.isMarshaler = exReflect.implements (exReflect.ptrTo 1) sszMarshalerType ∧
      r.isUnmarshaler = exReflect.implements (exReflect.ptrTo 1) sszUnmarshalerType ∧
      r.isHashRoot = exReflect.implements (exReflect.ptrTo 1) sszHashRootType :=
  ⟨rfl, rfl, rfl, rfl, C2_capability_flags exReflect exGetSszSize exEngine 1 rfl rfl⟩

/-- C3 (override flag): for an uncached type whose size resolution with the empty
hint list returns `(size, hasSpecVals, nil)`, the returned record has
`hasDynamicSpecValues = hasSpecVals`, for every reflection environment (whatever
the capability flags are); and the resolver is only ever asked with the empty hint
list: replacing it by any resolver that agrees on empty hint lists changes neither
the result nor the resulting engine. -/
theorem C3_override_flag (R : Reflect Ty) (getSszSize : SizeResolver Ty H ε σ)
    (d : DynSsz Ty σ) (T : Ty) (size : Int) (hasSpecVals : Bool)
    (h : d.fastsszCompatCache T = none)
    (hok : (getSszSize T [] d.rest).1 = (size, hasSpecVals, none)) :
    (∃ p r, (getFastsszCompatibility R getSszSize d T).1 = (some p, none) ∧
      (getFastsszCompatibility R getSszSize d T).2.records[p]? = some r ∧
      (getFastsszCompatibility R getSszSize d T).2.fastsszCompatCache T = some p ∧
      r.hasDynamicSpecValues = hasSpecVals) ∧
    (∀ g2 : SizeResolver Ty H ε σ, (∀ U s, g2 U [] s = getSszSize U [] s) →
      getFastsszCompatibility R g2 d T = getFastsszCompatibility R getSszSize d T) := by
  constructor
  · have he : (getSszSize T [] d.rest).1.2.2 = none := by rw [hok]
    have hv : (getSszSize T [] d.rest).1.2.1 = hasSpecVals := by rw [hok]
    rw [getFastsszCompatibility_miss_ok R getSszSize d T h he]
    exact ⟨d.records.length,
      fastsszCompatibility.mk
        (R.implements (R.ptrTo T) sszMarshalerType)
        (R.implements (R.ptrTo T) sszUnmarshalerType)
        (R.implements (R.ptrTo T) sszHashRootType)
        (getSszSize T [] d.rest).1.2.1,
      rfl, by simp, by simp, hv⟩
  · intro g2 hg
    unfold getFastsszCompatibility
    rw [hg T d.rest]

/-- Witness for C3: type `2` carries dynamic spec values, type `2` is not cached in `exEngine`. -/
theorem C3_override_flag_witness :
    (∃ p r, (getFastsszCompatibility exReflect exGetSszSize exEngine 2).1 = (some p, none) ∧
      (getFastsszCompatibility exReflect exGetSszSize exEngine 2).2.records[p]? = some r ∧
      (getFastsszCompatibility exReflect exGetSszSize exEngine 2).2.fastsszCompatCache 2 = some p ∧
      r.hasDynamicSpecValues = true) ∧
    (∀ g2 : SizeResolver Nat Unit String Nat, (∀ U s, g2 U [] s = exGetSszSize U [] s) →
      getFastsszCompatibility exReflect g2 exEngine 2
        = getFastsszCompatibility exReflect exGetSszSize exEngine 2) :=
  C3_override_flag exReflect exGetSszSize exEngine 2 8 true rfl rfl

/-- C4 (failure is propagated and not cached): for an uncached type whose size
resolution returns the error `e`, the call returns `(nil, e)`, and the cache and
the allocated records after the call are those before it; and a call returns an
error exactly when the type has no cached record and its size resolution fails. -/
theorem C4_failure_not_cached (R : Reflect Ty) (getSszSize : SizeResolver Ty H ε σ)
    (d : DynSsz Ty σ) (T : Ty) :
    (∀ e, d.fastsszCompatCache T = none → (getSszSize T [] d.rest).1.2.2 = some e →
      (getFastsszCompatibility R getSszSize d T).1 = (none, some e) ∧
      (getFastsszCompatibility R getSszSize d T).2.fastsszCompatCache = d.fastsszCompatCache ∧
      (getFastsszCompatibility R getSszSize d T).2.records = d.records) ∧
    ((getFastsszCompatibility R getSszSize d T).1.2 ≠ none ↔
      (d.fastsszCompatCache T = none ∧ (getSszSize T [] d.rest).1.2.2 ≠ none)) := by
  constructor
  · intro e h he
    rw [getFastsszCompatibility_miss_err R getSszSize d T e h he]
    exact ⟨rfl, rfl, rfl⟩
  · rcases getFastsszCompatibility_cases R getSszSize d T with
      ⟨c, hc, h⟩ | ⟨e, h0, he, h⟩ | ⟨h0, he, h⟩
    · rw [h]
      constructor
      · intro hne
        exact absurd rfl hne
      · rintro ⟨h0, _⟩
        rw [hc] at h0
        exact absurd h0 (Option.some_ne_none c)
    · rw [h]
      constructor
      · intro _
        exact ⟨h0, by rw [he]; exact Option.some_ne_none e⟩
      · intro _
        exact Option.some_ne_none e
    · rw [h]
      constructor
      · intro hne
        exact absurd rfl hne
      · rintro ⟨_, hne⟩
        exact absurd he hne

/-- Witness for C4: type `0` is not cached in `exEngine` and its size resolution fails. -/
theorem C4_failure_not_cached_witness :
    exEngine.fastsszCompatCache 0 = none ∧
    (exGetSszSize 0 [] exEngine.rest).1.2.2 = some "unsupported type" ∧
    ((getFastsszCompatibility exReflect exGetSszSize exEngine 0).1
        = (none, some "unsupported type") ∧
     (getFastsszCompatibility exReflect exGetSszSize exEngine 0).2.fastsszCompatCache
        = exEngine.fastsszCompatCache ∧
     (getFastsszCompatibility exReflect exGetSszSize exEngine 0).2.records = exEngine.records) :=
  ⟨rfl, rfl,
    (C4_failure_not_cached exReflect exGetSszSize exEngine 0).1 "unsupported type" rfl rfl⟩

/-- C5 (computed at most once per engine and type): if a call for `T` succeeds
with record `c`, then the resulting cache maps `T` to `c`, and after any further
sequence of calls for any types, a call for `T` (with any size resolver) returns
`(c, nil)` again and leaves the whole engine untouched, so the size is not
resolved again; the record at `c` keeps the contents it had. -/
theorem C5_computed_once (R : Reflect Ty) (getSszSize : SizeResolver Ty H ε σ)
    (d : DynSsz Ty σ) (T : Ty) (c : Nat)
    (h : (getFastsszCompatibility R getSszSize d T).1 = (some c, none)) :
    (getFastsszCompatibility R getSszSize d T).2.fastsszCompatCache T = some c ∧
    ∀ (Us : List Ty) (g2 : SizeResolver Ty H ε σ),
      getFastsszCompatibility R g2
          (queryAll R getSszSize (getFastsszCompatibility R getSszSize d T).2 Us) T
        = ((some c, none),
            queryAll R getSszSize (getFastsszCompatibility R getSszSize d T).2 Us) ∧
      ∀ r, (getFastsszCompatibility R getSszSize d T).2.records[c]? = some r →
        (queryAll R getSszSize (getFastsszCompatibility R getSszSize d T).2 Us).records[c]?
          = some r := by
  have hc : (getFastsszCompatibility R getSszSize d T).2.fastsszCompatCache T = some c := by
    rcases getFastsszCompatibility_cases R getSszSize d T with
      ⟨c1, hc1, h1⟩ | ⟨e, _, _, h1⟩ | ⟨_, _, h1⟩
    · rw [h1] at h ⊢
      simp only [Prod.mk.injEq, Option.some.injEq, and_true] at h
      rw [← h]
      exact hc1
    · rw [h1] at h
      simp at h
    · rw [h1] at h ⊢
      simp only [Prod.mk.injEq, Option.some.injEq, and_true] at h
      rw [← h]
      simp
  refine ⟨hc, fun Us g2 => ⟨?_, fun r hr => ?_⟩⟩
  · exact getFastsszCompatibility_hit R g2 _ T c
      (queryAll_cache_keeps R getSszSize Us _ T c hc)
  · exact queryAll_records_keep R getSszSize Us _ c r hr

/-- Witness for C5: type `1` is resolved on `exEngine`, types `2, 0, 1, 7` are
queried afterwards, and the next call for `1` does not run the (then failing) resolver. -/
theorem C5_computed_once_witness :
    (getFastsszCompatibility exReflect exGetSszSize exEngine 1).1 = (some 1, none) ∧
    (getFastsszCompatibility exReflect exGetSszSize exEngine 1).2.fastsszCompatCache 1 = some 1 ∧
    (getFastsszCompatibility exReflect exFailing
          (queryAll exReflect exGetSszSize
            (getFastsszCompatibility exReflect exGetSszSize exEngine 1).2 [2, 0, 1, 7]) 1).1
        = (some 1, none) :=
  ⟨rfl,
   (C5_computed_once exReflect exGetSszSize exEngine 1 1 rfl).1,
   congrArg Prod.fst
     (((C5_computed_once exReflect exGetSszSize exEngine 1 1 rfl).2 [2, 0, 1, 7]
        exFailing).1)⟩

/-- C6 (insert-once invariant): over every sequence of calls a non-nil cache entry
for `T` keeps its pointer and the record it points to keeps all four fields; a
single call for `U` leaves the entries of all other types as they were, and when
`U` already had a non-nil entry it leaves the whole cache and all records as they
were. -/
theorem C6_insert_once (R : Reflect Ty) (getSszSize : SizeResolver Ty H ε σ)
    (d : DynSsz Ty σ) :
    (∀ (Us : List Ty) (T : Ty) (p : Nat) (r : fastsszCompatibility),
      d.fastsszCompatCache T = some p → d.records[p]? = some r →
      (queryAll R getSszSize d Us).fastsszCompatCache T = some p ∧
      (queryAll R getSszSize d Us).records[p]? = some r) ∧
    (∀ U : Ty,
      (∀ T, T ≠ U →
        (getFastsszCompatibility R getSszSize d U).2.fastsszCompatCache T
          = d.fastsszCompatCache T) ∧
      (d.fastsszCompatCache U ≠ none →
        (getFastsszCompatibility R getSszSize d U).2.fastsszCompatCache = d.fastsszCompatCache ∧
        (getFastsszCompatibility R getSszSize d U).2.records = d.records)) := by
  refine ⟨fun Us T p r hp hr => ⟨?_, ?_⟩, fun U => ⟨fun T hne => ?_, fun hU => ?_⟩⟩
  · exact queryAll_cache_keeps R getSszSize Us d T p hp
  · exact queryAll_records_keep R getSszSize Us d p r hr
  · exact getFastsszCompatibility_cache_other R getSszSize d U T hne
  · rw [getFastsszCompatibility_state_of_cached R getSszSize d U hU]
    exact ⟨rfl, rfl⟩

/-- Witness for C6: the record cached for type `5` in `exEngine` survives the
calls for `1, 5, 2, 0, 5`. -/
theorem C6_insert_once_witness :
    exEngine.fastsszCompatCache 5 = some 0 ∧
    exEngine.records[0]? = some (fastsszCompatibility.mk true true true false) ∧
    ((queryAll exReflect exGetSszSize exEngine [1, 5, 2, 0, 5]).fastsszCompatCache 5 = some 0 ∧
     (queryAll exReflect exGetSszSize exEngine [1, 5, 2, 0, 5]).records[0]?
        = some (fastsszCompatibility.mk true true true false)) :=
  ⟨rfl, rfl,
    (C6_insert_once exReflect exGetSszSize exEngine).1 [1, 5, 2, 0, 5] 5 0
      (fastsszCompatibility.mk true true true false) rfl rfl⟩

end CompatTheorems

/-! ## Theorems, part 2 -/

/-- The value `leDecode` computes is the positional sum of the bytes. -/
theorem leDecode_eq_sum (b : List Nat) :
    leDecode b = ∑ i in Finset.range b.length, b.getD i 0 * 256 ^ i := by
  induction b with
  | nil => simp [leDecode]
  | cons x xs ih =>
    rw [leDecode, ih, List.length_cons, Finset.sum_range_succ', Finset.mul_sum]
    simp only [List.getD_cons_succ, List.getD_cons_zero, pow_zero, mul_one, pow_succ]
    rw [add_comm]
    congr 1
    apply Finset.sum_congr rfl
    intro i _
    ring

/-- A list of `w` bytes decodes to a value below `256 ^ w`. -/
theorem leDecode_lt (b : List Nat) (hb : ∀ x ∈ b, x < 256) :
    leDecode b < 256 ^ b.length := by
  induction b with
  | nil => simp [leDecode]
  | cons x xs ih =>
    have hx : x < 256 := hb x (List.mem_cons_self x xs)
    have hxs : leDecode xs < 256 ^ xs.length :=
      ih (fun y hy => hb y (List.mem_cons_of_mem x hy))
    rw [leDecode, List.length_cons, pow_succ]
    omega

/-- Encoding produces exactly `w` bytes. -/
theorem leEncode_length (w n : Nat) : (leEncode w n).length = w := by
  induction w generalizing n with
  | zero => rfl
  | succ w ih => simp [leEncode, ih]

/-- Decoding undoes encoding for values that fit the width. -/
theorem leDecode_leEncode (w n : Nat) (h : n < 256 ^ w) : leDecode (leEncode w n) = n := by
  induction w generalizing n with
  | zero =>
    simp only [pow_zero, Nat.lt_one_iff] at h
    simp [leEncode, leDecode, h]
  | succ w ih =>
    have hq : n / 256 < 256 ^ w := by
      rw [Nat.div_lt_iff_lt_mul (by norm_num)]
      rw [pow_succ] at h
      exact h
    rw [leEncode, leDecode, ih (n / 256) hq]
    omega

/-- The generic path is taken whenever `NoFastSsz` is set. -/
theorem UnmarshalSSZ_noFast (d : Engine) (hd : d.NoFastSsz = true) (t : SszType)
    (buf : List Nat) : UnmarshalSSZ d t buf = unmarshalGeneric t buf := by
  simp [UnmarshalSSZ, hd]

/-- The generic path is taken whenever `NoFastSsz` is set. -/
theorem MarshalSSZ_noFast (d : Engine) (hd : d.NoFastSsz = true) (t : SszType)
    (v : SszValue) : MarshalSSZ d t v = marshalValue t v := by
  simp [MarshalSSZ, hd]

/-- An unsigned integer of width `w` decodes from exactly `w` bytes to their
little-endian value. -/
theorem unmarshalGeneric_uint (k : UintKind) (b : List Nat) (hb : b.length = k.width) :
    unmarshalGeneric (SszType.uint k) b = Except.ok (SszValue.uint (leDecode b)) := by
  have h1 : ¬ b.length < k.width := by omega
  have h2 : ¬ k.width < b.length := by omega
  have h3 : List.take k.width b = b := by rw [← hb]; exact List.take_length b
  simp only [unmarshalGeneric, sszSize, unmarshalValue, h1, h2, h3, if_false]

/-- C8 (primitive decoding): with the fast path disabled, for each unsigned
integer kind (the widths are exactly 1, 2, 4 and 8 bytes) every buffer of exactly
that many bytes decodes successfully to the little-endian value of the buffer,
the sum of `b[i] * 256 ^ i`, which fits the `8 * w` bits of the target; and the
one-byte buffers `0x00` and `0x01` decode to the booleans false and true. -/
theorem C8_primitive_decoding (d : Engine) (hd : d.NoFastSsz = true) :
    (∀ (k : UintKind) (b : List Nat), b.length = k.width → (∀ x ∈ b, x < 256) →
      UnmarshalSSZ d (SszType.uint k) b
        = Except.ok (SszValue.uint (∑ i in Finset.range b.length, b.getD i 0 * 256 ^ i)) ∧
      (∑ i in Finset.range b.length, b.getD i 0 * 256 ^ i) < 2 ^ (8 * k.width)) ∧
    (∀ w : Nat, w ∈ [1, 2, 4, 8] ↔ ∃ k : UintKind, k.width = w) ∧
    UnmarshalSSZ d SszType.bool [0] = Except.ok (SszValue.bool false) ∧
    UnmarshalSSZ d SszType.bool [1] = Except.ok (SszValue.bool true) := by
  refine ⟨fun k b hlen hb => ⟨?_, ?_⟩, fun w => ⟨fun hw => ?_, ?_⟩, ?_, ?_⟩
  · rw [UnmarshalSSZ_noFast d hd, unmarshalGeneric_uint k b hlen, leDecode_eq_sum]
  · rw [← leDecode_eq_sum, ← hlen, pow_mul]
    exact leDecode_lt b hb
  · simp only [List.mem_cons, List.mem_singleton, List.not_mem_nil, or_false] at hw
    rcases hw with h | h | h | h
    · exact ⟨UintKind.u8, h.symm⟩
    · exact ⟨UintKind.u16, h.symm⟩
    · exact ⟨UintKind.u32, h.symm⟩
    · exact ⟨UintKind.u64, h.symm⟩
  · rintro ⟨k, rfl⟩
    cases k <;> simp [UintKind.width]
  · rw [UnmarshalSSZ_noFast d hd]
    rfl
  · rw [UnmarshalSSZ_noFast d hd]
    rfl

/-- Witness for C8: the three integer rows of the test matrix named by the claim. -/
theorem C8_primitive_decoding_witness :
    testEngine.NoFastSsz = true ∧
    UnmarshalSSZ testEngine (SszType.uint UintKind.u32) [0xe7, 0xc9, 0xb9, 0x30]
      = Except.ok (SszValue.uint 817482215) ∧
    UnmarshalSSZ testEngine (SszType.uint UintKind.u16) [0x39, 0x05]
      = Except.ok (SszValue.uint 1337) ∧
    UnmarshalSSZ testEngine (SszType.uint UintKind.u64)
        [0x9c, 0x4f, 0x75, 0x72, 0xc5, 0x00, 0x00, 0x00]
      = Except.ok (SszValue.uint 848028848028) ∧
    UnmarshalSSZ testEngine SszType.bool [0] = Except.ok (SszValue.bool false) ∧
    UnmarshalSSZ testEngine SszType.bool [1] = Except.ok (SszValue.bool true) :=
  ⟨rfl,
   ((C8_primitive_decoding testEngine rfl).1 UintKind.u32 [0xe7, 0xc9, 0xb9, 0x30] rfl
      (by decide)).1,
   ((C8_primitive_decoding testEngine rfl).1 UintKind.u16 [0x39, 0x05] rfl (by decide)).1,
   ((C8_primitive_decoding testEngine rfl).1 UintKind.u64
      [0x9c, 0x4f, 0x75, 0x72, 0xc5, 0x00, 0x00, 0x00] rfl (by decide)).1,
   (C8_primitive_decoding testEngine rfl).2.2.1,
   (C8_primitive_decoding testEngine rfl).2.2.2⟩

/-- A run of fixed-size fields has no offsets. -/
theorem readOffsets_replicate_some (buf : List Nat) (n s pos : Nat) :
    readOffsets buf pos (List.replicate n (some s)) = [] := by
  induction n generalizing pos with
  | zero => rfl
  | succ n ih => simp [List.replicate_succ, readOffsets, ih]

/-- A run of `n` fixed-size fields of size `s` occupies `n * s` bytes. -/
theorem fixedRegionSize_replicate_some (n s : Nat) :
    fixedRegionSize (List.replicate n (some s)) = n * s := by
  induction n with
  | zero => simp [fixedRegionSize]
  | succ n ih =>
    simp only [List.replicate_succ, fixedRegionSize, ih]
    ring

/-- Slicing a byte string into one-byte fields yields its bytes. -/
theorem fieldSlices_bytes (pre bs : List Nat) (offs : List Nat) :
    fieldSlices (pre ++ bs) pre.length (List.replicate bs.length (some 1)) offs
      = bs.map (fun x => [x]) := by
  induction bs generalizing pre with
  | nil => rfl
  | cons x xs ih =>
    have h := ih (pre ++ [x])
    simp only [List.length_append, List.length_singleton, List.append_assoc,
      List.singleton_append] at h
    simp only [List.length_cons, List.replicate_succ, fieldSlices, List.map_cons, h]
    congr 1
    simp [slice]

/-- One-byte slices decode to their bytes as `uint8` values. -/
theorem mapExcept_unmarshal_uint8 (bs : List Nat) :
    mapExcept (unmarshalValue (SszType.uint UintKind.u8)) (bs.map (fun x => [x]))
      = Except.ok (bs.map SszValue.uint) := by
  induction bs with
  | nil => rfl
  | cons x xs ih =>
    rw [List.map_cons, mapExcept, ih]
    simp [unmarshalValue, UintKind.width, leDecode]

/-- A variable-length byte sequence decodes from any buffer to the bytes of the buffer. -/
theorem unmarshalValue_byteList (bs : List Nat) :
    unmarshalValue (SszType.list (SszType.uint UintKind.u8)) bs
      = Except.ok (SszValue.seq (bs.map SszValue.uint)) := by
  have hs := fieldSlices_bytes [] bs []
  simp only [List.nil_append, List.length_nil] at hs
  rw [unmarshalValue]
  simp only [sszSize, UintKind.width, listCount, Nat.mod_one, if_true, Nat.div_one, splitFields,
    fixedRegionSize_replicate_some, readOffsets_replicate_some, checkOffsets, hs,
    mapExcept_unmarshal_uint8, mul_one, lt_self_iff_false, if_false]

/-- A boolean decodes from one byte: `1` is true, any other byte is false. -/
theorem unmarshalValue_bool_byte (x : Nat) :
    unmarshalValue SszType.bool [x] = Except.ok (SszValue.bool (x == 1)) := by
  simp [unmarshalValue]

/-- An unsigned integer decodes from exactly its width in bytes. -/
theorem unmarshalValue_uint_exact (k : UintKind) (b : List Nat) (hb : b.length = k.width) :
    unmarshalValue (SszType.uint k) b = Except.ok (SszValue.uint (leDecode b)) := by
  have h1 : ¬ b.length < k.width := by omega
  have h3 : List.take k.width b = b := by rw [← hb]; exact List.take_length b
  simp only [unmarshalValue, h1, h3, if_false]

/-- Five `uint16` elements decode from ten bytes, two bytes each. -/
theorem unmarshalValue_uint16x5 (x0 x1 x2 x3 x4 x5 x6 x7 x8 x9 : Nat) :
    unmarshalValue (SszType.vector (SszType.uint UintKind.u16) 5)
        [x0, x1, x2, x3, x4, x5, x6, x7, x8, x9]
      = Except.ok (SszValue.seq [SszValue.uint (leDecode [x0, x1]),
          SszValue.uint (leDecode [x2, x3]), SszValue.uint (leDecode [x4, x5]),
          SszValue.uint (leDecode [x6, x7]), SszValue.uint (leDecode [x8, x9])]) := by
  rw [unmarshalValue]
  have hsplit : splitFields (List.replicate 5 (sszSize (SszType.uint UintKind.u16)))
      [x0, x1, x2, x3, x4, x5, x6, x7, x8, x9]
      = Except.ok [[x0, x1], [x2, x3], [x4, x5], [x6, x7], [x8, x9]] := by
    simp [splitFields, sszSize, UintKind.width, List.replicate, fixedRegionSize, readOffsets,
      checkOffsets, fieldSlices, slice]
  rw [hsplit]
  simp only [mapExcept]
  rw [unmarshalValue_uint_exact UintKind.u16 [x0, x1] rfl,
    unmarshalValue_uint_exact UintKind.u16 [x2, x3] rfl,
    unmarshalValue_uint_exact UintKind.u16 [x4, x5] rfl,
    unmarshalValue_uint_exact UintKind.u16 [x6, x7] rfl,
    unmarshalValue_uint_exact UintKind.u16 [x8, x9] rfl]

/-- The size profile of `mixedStruct`: dynamic, with a 19-byte fixed region. -/
theorem mixedStruct_sizes :
    sszSize mixedStruct = none ∧
    fixedRegionSize ([SszType.bool, SszType.list (SszType.uint UintKind.u8),
      SszType.vector (SszType.uint UintKind.u16) 5, SszType.uint UintKind.u32].map sszSize) = 19 := by
  constructor <;> rfl

/-- Decoding `mixedStruct` from its fixed region followed by the bytes of `F2`. -/
theorem unmarshalGeneric_mixedStruct (f1 : Bool) (f2 : List Nat) (a0 a1 a2 a3 a4 f4 : Nat)
    (h0 : a0 < 65536) (h1 : a1 < 65536) (h2 : a2 < 65536) (h3 : a3 < 65536) (h4 : a4 < 65536)
    (hf4 : f4 < 2 ^ 32) :
    unmarshalGeneric mixedStruct
      ([if f1 then 1 else 0] ++ leEncode 4 19 ++ List.flatMap [a0, a1, a2, a3, a4] (leEncode 2)
        ++ leEncode 4 f4 ++ f2)
    = Except.ok (SszValue.struct [SszValue.bool f1, SszValue.seq (f2.map SszValue.uint),
        SszValue.seq ([a0, a1, a2, a3, a4].map SszValue.uint), SszValue.uint f4]) := by
  rw [unmarshalGeneric, mixedStruct_sizes.1]
  simp only
  rw [mixedStruct, unmarshalValue]
  have hlen : ∀ n : Nat,
      ¬ (n + 1 + 1 + 1 + 1 + 1 + 1 + 1 + 1 + 1 + 1 + 1 + 1 + 1 + 1 + 1 + 1 + 1 + 1 + 1 < 19) := by
    intro n; omega
  have hsplit : splitFields
      ([SszType.bool, SszType.list (SszType.uint UintKind.u8),
        SszType.vector (SszType.uint UintKind.u16) 5, SszType.uint UintKind.u32].map sszSize)
      ([if f1 then 1 else 0] ++ leEncode 4 19 ++ List.flatMap [a0, a1, a2, a3, a4] (leEncode 2)
        ++ leEncode 4 f4 ++ f2)
      = Except.ok [[if f1 then 1 else 0], f2,
          [a0 % 256, a0 / 256 % 256, a1 % 256, a1 / 256 % 256, a2 % 256, a2 / 256 % 256,
            a3 % 256, a3 / 256 % 256, a4 % 256, a4 / 256 % 256],
          [f4 % 256, f4 / 256 % 256, f4 / 256 / 256 % 256, f4 / 256 / 256 / 256 % 256]] := by
    simp [splitFields, sszSize, sszSizeFields, UintKind.width, fixedRegionSize, readOffsets,
      readOffset, checkOffsets, fieldSlices, slice, leEncode, leDecode, hlen]
  rw [hsplit]
  have e0 : leDecode [a0 % 256, a0 / 256 % 256] = a0 := leDecode_leEncode 2 a0 h0
  have e1 : leDecode [a1 % 256, a1 / 256 % 256] = a1 := leDecode_leEncode 2 a1 h1
  have e2 : leDecode [a2 % 256, a2 / 256 % 256] = a2 := leDecode_leEncode 2 a2 h2
  have e3 : leDecode [a3 % 256, a3 / 256 % 256] = a3 := leDecode_leEncode 2 a3 h3
  have e4 : leDecode [a4 % 256, a4 / 256 % 256] = a4 := leDecode_leEncode 2 a4 h4
  have e5 : leDecode [f4 % 256, f4 / 256 % 256, f4 / 256 / 256 % 256,
      f4 / 256 / 256 / 256 % 256] = f4 := leDecode_leEncode 4 f4 (by norm_num at hf4 ⊢; exact hf4)
  simp only [unmarshalFields]
  rw [unmarshalValue_bool_byte, unmarshalValue_byteList, unmarshalValue_uint16x5,
    unmarshalValue_uint_exact UintKind.u32
      [f4 % 256, f4 / 256 % 256, f4 / 256 / 256 % 256, f4 / 256 / 256 / 256 % 256] rfl,
    e0, e1, e2, e3, e4, e5]
  cases f1 <;> rfl

/-- The middle part of a three-part buffer, cut out by its positions. -/
theorem slice_append (a b c : List Nat) :
    slice (a ++ b ++ c) a.length (a.length + b.length) = b := by
  simp [slice, List.append_assoc]

/-- The middle part of a three-part buffer, with the positions given up to equality. -/
theorem slice_of_eq (buf a b c : List Nat) (lo hi : Nat) (hbuf : buf = a ++ b ++ c)
    (hlo : lo = a.length) (hhi : hi = a.length + b.length) : slice buf lo hi = b := by
  subst hbuf hlo hhi
  exact slice_append a b c

/-- The last part of a two-part buffer runs from its position to the buffer end. -/
theorem slice_append_end (a b : List Nat) :
    slice (a ++ b) a.length (a ++ b).length = b := by
  simp [slice]

/-- An offset written with `leEncode 4` is read back where it was written. -/
theorem readOffset_append (a c : List Nat) (n : Nat) (hn : n < 2 ^ 32) :
    readOffset (a ++ leEncode 4 n ++ c) a.length = n := by
  have h := slice_append a (leEncode 4 n) c
  rw [leEncode_length] at h
  rw [readOffset, h]
  exact leDecode_leEncode 4 n (by norm_num at hn ⊢; exact hn)

/-- A buffer holding three dynamic elements behind their offset table splits
into the three element encodings. -/
theorem splitFields_three_dynamic (e0 e1 e2 : List Nat)
    (h : 12 + e0.length + e1.length < 2 ^ 32) :
    splitFields [none, none, none]
      (leEncode 4 12 ++ leEncode 4 (12 + e0.length) ++ leEncode 4 (12 + e0.length + e1.length)
        ++ e0 ++ e1 ++ e2)
      = Except.ok [e0, e1, e2] := by
  have hb : (2 : Nat) ^ 32 = 4294967296 := by norm_num
  rw [hb] at h
  have r0 : readOffset (leEncode 4 12 ++ leEncode 4 (12 + e0.length)
      ++ leEncode 4 (12 + e0.length + e1.length) ++ e0 ++ e1 ++ e2) 0 = 12 := by
    have := readOffset_append [] (leEncode 4 (12 + e0.length)
      ++ leEncode 4 (12 + e0.length + e1.length) ++ e0 ++ e1 ++ e2) 12 (by norm_num)
    simpa [List.append_assoc] using this
  have r1 : readOffset (leEncode 4 12 ++ leEncode 4 (12 + e0.length)
      ++ leEncode 4 (12 + e0.length + e1.length) ++ e0 ++ e1 ++ e2) 4 = 12 + e0.length := by
    have := readOffset_append (leEncode 4 12) (leEncode 4 (12 + e0.length + e1.length)
      ++ e0 ++ e1 ++ e2) (12 + e0.length) (by omega)
    simpa [List.append_assoc, leEncode_length] using this
  have r2 : readOffset (leEncode 4 12 ++ leEncode 4 (12 + e0.length)
      ++ leEncode 4 (12 + e0.length + e1.length) ++ e0 ++ e1 ++ e2) 8
      = 12 + e0.length + e1.length := by
    have := readOffset_append (leEncode 4 12 ++ leEncode 4 (12 + e0.length)) (e0 ++ e1 ++ e2)
      (12 + e0.length + e1.length) (by omega)
    simpa [List.append_assoc, leEncode_length] using this
  have s0 : slice (leEncode 4 12 ++ leEncode 4 (12 + e0.length)
      ++ leEncode 4 (12 + e0.length + e1.length) ++ e0 ++ e1 ++ e2) 12 (12 + e0.length) = e0 := by
    apply slice_of_eq _ (leEncode 4 12 ++ leEncode 4 (12 + e0.length)
      ++ leEncode 4 (12 + e0.length + e1.length)) e0 (e1 ++ e2)
    · simp only [List.append_assoc]
    · simp only [List.length_append, leEncode_length]
    · simp only [List.length_append, leEncode_length]
  have s1 : slice (leEncode 4 12 ++ leEncode 4 (12 + e0.length)
      ++ leEncode 4 (12 + e0.length + e1.length) ++ e0 ++ e1 ++ e2) (12 + e0.length)
      (12 + e0.length + e1.length) = e1 := by
    apply slice_of_eq _ (leEncode 4 12 ++ leEncode 4 (12 + e0.length)
      ++ leEncode 4 (12 + e0.length + e1.length) ++ e0) e1 e2
    · simp only [List.append_assoc]
    · simp only [List.length_append, leEncode_length]
    · simp only [List.length_append, leEncode_length]
  have hl : (leEncode 4 12 ++ leEncode 4 (12 + e0.length)
      ++ leEncode 4 (12 + e0.length + e1.length) ++ e0 ++ e1 ++ e2).length
      = 12 + e0.length + e1.length + e2.length := by
    simp only [List.length_append, leEncode_length]
  have s2 : slice (leEncode 4 12 ++ leEncode 4 (12 + e0.length)
      ++ leEncode 4 (12 + e0.length + e1.length) ++ e0 ++ e1 ++ e2)
      (12 + e0.length + e1.length) (12 + e0.length + e1.length + e2.length) = e2 := by
    apply slice_of_eq _ (leEncode 4 12 ++ leEncode 4 (12 + e0.length)
      ++ leEncode 4 (12 + e0.length + e1.length) ++ e0 ++ e1) e2 []
    · simp only [List.append_assoc, List.append_nil]
    · simp only [List.length_append, leEncode_length]
    · simp only [List.length_append, leEncode_length]
  have c1 : ¬ (12 + e0.length + e1.length + e2.length < 4 + (4 + (4 + 0))) := by omega
  have c2 : ¬ (12 + e0.length + e1.length + e2.length < 12) := by omega
  have c3 : ¬ (12 + e0.length < 12) := by omega
  have c4 : ¬ (12 + e0.length + e1.length + e2.length < 12 + e0.length) := by omega
  have c5 : ¬ (12 + e0.length + e1.length < 12 + e0.length) := by omega
  have c6 : ¬ (12 + e0.length + e1.length + e2.length < 12 + e0.length + e1.length) := by omega
  simp only [splitFields, fixedRegionSize, readOffsets, r0, r1, r2, hl, checkOffsets, fieldSlices,
    s0, s1, s2, c1, c2, c3, c4, c5, c6, if_false, Nat.zero_add, Nat.reduceAdd]

/-- One element of `dynStruct1` decodes from its bool byte, its inner offset 5
and its bytes. -/
theorem unmarshalValue_dynStruct1 (x : Nat) (l : List Nat) :
    unmarshalValue dynStruct1 ([x] ++ leEncode 4 5 ++ l)
      = Except.ok (SszValue.struct [SszValue.bool (x == 1), SszValue.seq (l.map SszValue.uint)]) := by
  rw [dynStruct1, unmarshalValue]
  have hlen : ∀ n : Nat, ¬ (n + 1 + 1 + 1 + 1 + 1 < 5) := by
    intro n; omega
  have hsplit : splitFields
      ([SszType.bool, SszType.list (SszType.uint UintKind.u8)].map sszSize)
      ([x] ++ leEncode 4 5 ++ l) = Except.ok [[x], l] := by
    simp [splitFields, sszSize, UintKind.width, fixedRegionSize, readOffsets,
      readOffset, checkOffsets, fieldSlices, slice, leEncode, leDecode, hlen]
  rw [hsplit]
  simp only [unmarshalFields]
  rw [unmarshalValue_bool_byte, unmarshalValue_byteList]

/-- Bytes encode as `uint8` values to one-byte encodings. -/
theorem mapExcept_marshal_uint8 (l : List Nat) (h : ∀ x ∈ l, x < 256) :
    mapExcept (marshalValue (SszType.uint UintKind.u8)) (l.map SszValue.uint)
      = Except.ok (l.map (fun x => [x])) := by
  induction l with
  | nil => rfl
  | cons x xs ih =>
    have hx : x % 256 = x := Nat.mod_eq_of_lt (h x (List.mem_cons_self x xs))
    rw [List.map_cons, mapExcept, ih (fun y hy => h y (List.mem_cons_of_mem x hy))]
    simp [marshalValue, UintKind.width, leEncode, hx]

/-- Laying out one-byte fixed fields concatenates them. -/
theorem layout_bytes (l : List Nat) :
    layout (List.replicate l.length (some 1)) (l.map (fun x => [x])) = l := by
  have hd : layoutDynamic (List.replicate l.length (some 1)) (l.map (fun x => [x])) = [] := by
    induction l with
    | nil => rfl
    | cons x xs ih => simp [List.replicate_succ, layoutDynamic, ih]
  rw [layout, hd, List.append_nil]
  generalize fixedRegionSize (List.replicate l.length (some 1)) = off
  clear hd
  induction l with
  | nil => rfl
  | cons x xs ih => simp [List.replicate_succ, layoutFixed, ih]

/-- A variable-length byte list encodes to its bytes. -/
theorem marshalValue_byteList (l : List Nat) (h : ∀ x ∈ l, x < 256) :
    marshalValue (SszType.list (SszType.uint UintKind.u8)) (SszValue.seq (l.map SszValue.uint))
      = Except.ok l := by
  rw [marshalValue, mapExcept_marshal_uint8 l h]
  simp only [sszSize, UintKind.width, List.length_map, layout_bytes]

/-- One element of `dynStruct1` encodes to its bool byte, the inner offset 5 and
its bytes. -/
theorem marshalValue_dynStruct1 (b : Bool) (l : List Nat) (h : ∀ x ∈ l, x < 256) :
    marshalValue dynStruct1
        (SszValue.struct [SszValue.bool b, SszValue.seq (l.map SszValue.uint)])
      = Except.ok ([if b then 1 else 0] ++ leEncode 4 5 ++ l) := by
  rw [dynStruct1, marshalValue]
  simp only [marshalFields]
  rw [marshalValue_byteList l h]
  simp [marshalValue, layout, layoutFixed, layoutDynamic, fixedRegionSize, sszSize,
    UintKind.width]

/-- The outer struct splits into its two bytes and the payload of `F2`. -/
theorem splitFields_twoLevel (f1 f3 : Nat) (P : List Nat) :
    splitFields ([SszType.uint UintKind.u8, SszType.vector dynStruct1 3,
        SszType.uint UintKind.u8].map sszSize)
      ([f1] ++ leEncode 4 6 ++ [f3] ++ P) = Except.ok [[f1], P, [f3]] := by
  have hlen : ∀ n : Nat, ¬ (n + 1 + 1 + 1 + 1 + 1 + 1 < 6) := by
    intro n; omega
  simp [splitFields, sszSize, sszSizeFields, dynStruct1, UintKind.width, fixedRegionSize,
    readOffsets, readOffset, checkOffsets, fieldSlices, slice, leEncode, leDecode, hlen]

/-- Decoding a boolean byte written by the encoder gives the boolean back. -/
theorem bool_byte_roundtrip (b : Bool) : ((if b then 1 else 0 : Nat) == 1) = b := by
  cases b <;> rfl

/-- Decoding `twoLevelStruct` from its two-level offset layout. -/
theorem unmarshalGeneric_twoLevelStruct (f1 f3 : Nat) (b0 b1 b2 : Bool) (l0 l1 l2 : List Nat)
    (hsize : 12 + (5 + l0.length) + (5 + l1.length) < 2 ^ 32) :
    unmarshalGeneric twoLevelStruct
      ([f1] ++ leEncode 4 6 ++ [f3] ++
        (leEncode 4 12 ++ leEncode 4 (12 + (5 + l0.length))
          ++ leEncode 4 (12 + (5 + l0.length) + (5 + l1.length))
          ++ ([if b0 then 1 else 0] ++ leEncode 4 5 ++ l0)
          ++ ([if b1 then 1 else 0] ++ leEncode 4 5 ++ l1)
          ++ ([if b2 then 1 else 0] ++ leEncode 4 5 ++ l2)))
    = Except.ok (SszValue.struct [SszValue.uint f1,
        SszValue.seq [
          SszValue.struct [SszValue.bool b0, SszValue.seq (l0.map SszValue.uint)],
          SszValue.struct [SszValue.bool b1, SszValue.seq (l1.map SszValue.uint)],
          SszValue.struct [SszValue.bool b2, SszValue.seq (l2.map SszValue.uint)]],
        SszValue.uint f3]) := by
  have hs : sszSize twoLevelStruct = none := rfl
  rw [unmarshalGeneric, hs]
  simp only
  rw [twoLevelStruct, unmarshalValue, splitFields_twoLevel]
  simp only [unmarshalFields]
  have hv : unmarshalValue (SszType.vector dynStruct1 3)
      (leEncode 4 12 ++ leEncode 4 (12 + (5 + l0.length))
          ++ leEncode 4 (12 + (5 + l0.length) + (5 + l1.length))
          ++ ([if b0 then 1 else 0] ++ leEncode 4 5 ++ l0)
          ++ ([if b1 then 1 else 0] ++ leEncode 4 5 ++ l1)
          ++ ([if b2 then 1 else 0] ++ leEncode 4 5 ++ l2))
      = Except.ok (SszValue.seq [
          SszValue.struct [SszValue.bool b0, SszValue.seq (l0.map SszValue.uint)],
          SszValue.struct [SszValue.bool b1, SszValue.seq (l1.map SszValue.uint)],
          SszValue.struct [SszValue.bool b2, SszValue.seq (l2.map SszValue.uint)]]) := by
    rw [unmarshalValue]
    have hrep : List.replicate 3 (sszSize dynStruct1) = [none, none, none] := rfl
    have hl0 : ([if b0 then 1 else 0] ++ leEncode 4 5 ++ l0).length = 5 + l0.length := by
      simp only [List.length_append, List.length_singleton, leEncode_length, Nat.reduceAdd]
    have hl1 : ([if b1 then 1 else 0] ++ leEncode 4 5 ++ l1).length = 5 + l1.length := by
      simp only [List.length_append, List.length_singleton, leEncode_length, Nat.reduceAdd]
    have hsp := splitFields_three_dynamic ([if b0 then 1 else 0] ++ leEncode 4 5 ++ l0)
      ([if b1 then 1 else 0] ++ leEncode 4 5 ++ l1) ([if b2 then 1 else 0] ++ leEncode 4 5 ++ l2)
      (by rw [hl0, hl1]; exact hsize)
    rw [hl0, hl1] at hsp
    rw [hrep, hsp]
    simp only [mapExcept]
    rw [unmarshalValue_dynStruct1, unmarshalValue_dynStruct1, unmarshalValue_dynStruct1,
      bool_byte_roundtrip, bool_byte_roundtrip, bool_byte_roundtrip]
  rw [unmarshalValue_uint_exact UintKind.u8 [f1] rfl, hv,
    unmarshalValue_uint_exact UintKind.u8 [f3] rfl]
  simp [leDecode]

/-- Encoding `twoLevelStruct` produces the two-level offset layout. -/
theorem marshalValue_twoLevelStruct (f1 f3 : Nat) (b0 b1 b2 : Bool) (l0 l1 l2 : List Nat)
    (h1 : f1 < 256) (h3 : f3 < 256)
    (hl0 : ∀ x ∈ l0, x < 256) (hl1 : ∀ x ∈ l1, x < 256) (hl2 : ∀ x ∈ l2, x < 256) :
    marshalValue twoLevelStruct
      (SszValue.struct [SszValue.uint f1,
        SszValue.seq [
          SszValue.struct [SszValue.bool b0, SszValue.seq (l0.map SszValue.uint)],
          SszValue.struct [SszValue.bool b1, SszValue.seq (l1.map SszValue.uint)],
          SszValue.struct [SszValue.bool b2, SszValue.seq (l2.map SszValue.uint)]],
        SszValue.uint f3])
    = Except.ok ([f1] ++ leEncode 4 6 ++ [f3] ++
        (leEncode 4 12 ++ leEncode 4 (12 + (5 + l0.length))
          ++ leEncode 4 (12 + (5 + l0.length) + (5 + l1.length))
          ++ ([if b0 then 1 else 0] ++ leEncode 4 5 ++ l0)
          ++ ([if b1 then 1 else 0] ++ leEncode 4 5 ++ l1)
          ++ ([if b2 then 1 else 0] ++ leEncode 4 5 ++ l2))) := by
  have hv : marshalValue (SszType.vector dynStruct1 3)
      (SszValue.seq [
          SszValue.struct [SszValue.bool b0, SszValue.seq (l0.map SszValue.uint)],
          SszValue.struct [SszValue.bool b1, SszValue.seq (l1.map SszValue.uint)],
          SszValue.struct [SszValue.bool b2, SszValue.seq (l2.map SszValue.uint)]])
      = Except.ok (leEncode 4 12 ++ leEncode 4 (12 + (5 + l0.length))
          ++ leEncode 4 (12 + (5 + l0.length) + (5 + l1.length))
          ++ ([if b0 then 1 else 0] ++ leEncode 4 5 ++ l0)
          ++ ([if b1 then 1 else 0] ++ leEncode 4 5 ++ l1)
          ++ ([if b2 then 1 else 0] ++ leEncode 4 5 ++ l2)) := by
    rw [marshalValue]
    simp only [List.length_cons, List.length_nil, Nat.reduceAdd, ne_eq, not_true_eq_false,
      if_false, mapExcept]
    rw [marshalValue_dynStruct1 b0 l0 hl0, marshalValue_dynStruct1 b1 l1 hl1,
      marshalValue_dynStruct1 b2 l2 hl2]
    have hrep : List.replicate 3 (sszSize dynStruct1) = [none, none, none] := rfl
    have hn0 : ([if b0 then 1 else 0] ++ leEncode 4 5 ++ l0).length = 5 + l0.length := by
      simp only [List.length_append, List.length_singleton, leEncode_length, Nat.reduceAdd]
    have hn1 : ([if b1 then 1 else 0] ++ leEncode 4 5 ++ l1).length = 5 + l1.length := by
      simp only [List.length_append, List.length_singleton, leEncode_length, Nat.reduceAdd]
    simp only [hrep, layout, layoutFixed, layoutDynamic, fixedRegionSize, hn0, hn1,
      List.append_nil, Nat.reduceAdd]
    simp only [List.append_assoc]
  have hf1 : f1 % 256 = f1 := Nat.mod_eq_of_lt h1
  have hf3 : f3 % 256 = f3 := Nat.mod_eq_of_lt h3
  rw [twoLevelStruct, marshalValue]
  simp only [marshalFields]
  rw [hv]
  simp [marshalValue, UintKind.width, leEncode, hf1, hf3, layout, layoutFixed, layoutDynamic,
    fixedRegionSize, sszSize, sszSizeFields, dynStruct1]

/-- Encoding `mixedStruct` produces the 19-byte fixed region followed by the bytes of `F2`. -/
theorem marshalValue_mixedStruct (f1 : Bool) (f2 : List Nat) (a0 a1 a2 a3 a4 f4 : Nat)
    (h2 : ∀ x ∈ f2, x < 256) :
    marshalValue mixedStruct
      (SszValue.struct [SszValue.bool f1, SszValue.seq (f2.map SszValue.uint),
        SszValue.seq ([a0, a1, a2, a3, a4].map SszValue.uint), SszValue.uint f4])
    = Except.ok ([if f1 then 1 else 0] ++ leEncode 4 19
        ++ List.flatMap [a0, a1, a2, a3, a4] (leEncode 2) ++ leEncode 4 f4 ++ f2) := by
  have hv : marshalValue (SszType.vector (SszType.uint UintKind.u16) 5)
      (SszValue.seq ([a0, a1, a2, a3, a4].map SszValue.uint))
      = Except.ok (List.flatMap [a0, a1, a2, a3, a4] (leEncode 2)) := by
    rw [marshalValue]
    simp [mapExcept, marshalValue, UintKind.width, sszSize, List.replicate, layout, layoutFixed,
      layoutDynamic, fixedRegionSize, leEncode]
  rw [mixedStruct, marshalValue]
  simp only [marshalFields]
  rw [marshalValue_byteList f2 h2, hv]
  simp [marshalValue, UintKind.width, leEncode, layout, layoutFixed, layoutDynamic,
    fixedRegionSize, sszSize]

/-- C7 (mixed static/dynamic struct decoding): with the fast path disabled, for
every value `(f1, f2, f3, f4)` of `struct { F1 bool; F2 []uint8; F3 []uint16`
(`ssz-size:"5"`) `; F4 uint32 }` (so `f3` has five elements), the buffer made of
the 19-byte fixed region (the byte of `F1`, the 4-byte little-endian offset 19,
the five elements of `F3` as 2-byte little-endian values, `F4` as 4 little-endian
bytes) followed by the bytes of `F2` is the encoding of the value, and
`UnmarshalSSZ` of it succeeds and yields the value. -/
theorem C7_mixed_struct_decoding (d : Engine) (hd : d.NoFastSsz = true)
    (f1 : Bool) (f2 f3 : List Nat) (f4 : Nat)
    (h2 : ∀ x ∈ f2, x < 256) (h3len : f3.length = 5) (h3 : ∀ x ∈ f3, x < 2 ^ 16)
    (h4 : f4 < 2 ^ 32) :
    ([if f1 then 1 else 0] ++ leEncode 4 19 ++ List.flatMap f3 (leEncode 2)
        ++ leEncode 4 f4).length = 19 ∧
    MarshalSSZ d mixedStruct
      (SszValue.struct [SszValue.bool f1, SszValue.seq (f2.map SszValue.uint),
        SszValue.seq (f3.map SszValue.uint), SszValue.uint f4])
      = Except.ok ([if f1 then 1 else 0] ++ leEncode 4 19 ++ List.flatMap f3 (leEncode 2)
          ++ leEncode 4 f4 ++ f2) ∧
    UnmarshalSSZ d mixedStruct
      ([if f1 then 1 else 0] ++ leEncode 4 19 ++ List.flatMap f3 (leEncode 2)
        ++ leEncode 4 f4 ++ f2)
      = Except.ok (SszValue.struct [SszValue.bool f1, SszValue.seq (f2.map SszValue.uint),
          SszValue.seq (f3.map SszValue.uint), SszValue.uint f4]) := by
  obtain ⟨a0, a1, a2, a3, a4, rfl⟩ : ∃ a0 a1 a2 a3 a4, f3 = [a0, a1, a2, a3, a4] := by
    match f3, h3len with
    | [a0, a1, a2, a3, a4], _ => exact ⟨a0, a1, a2, a3, a4, rfl⟩
  have hb : ∀ x : Nat, x < 2 ^ 16 → x < 65536 := by
    intro x hx; norm_num at hx; exact hx
  refine ⟨?_, ?_, ?_⟩
  · simp [leEncode_length, leEncode]
  · rw [MarshalSSZ_noFast d hd]
    exact marshalValue_mixedStruct f1 f2 a0 a1 a2 a3 a4 f4 h2
  · rw [UnmarshalSSZ_noFast d hd]
    exact unmarshalGeneric_mixedStruct f1 f2 a0 a1 a2 a3 a4 f4
      (hb a0 (h3 a0 (by simp))) (hb a1 (h3 a1 (by simp))) (hb a2 (h3 a2 (by simp)))
      (hb a3 (h3 a3 (by simp))) (hb a4 (h3 a4 (by simp))) h4

/-- Witness for C7: the row `(true, [1,1,1,1], [2,2,2,2,0], 3)` of the test matrix and
its expected bytes `0x0113000000020002000200020000000300000001010101`. -/
theorem C7_mixed_struct_decoding_witness :
    testEngine.NoFastSsz = true ∧
    UnmarshalSSZ testEngine mixedStruct
      [0x01, 0x13, 0x00, 0x00, 0x00, 0x02, 0x00, 0x02, 0x00, 0x02, 0x00, 0x02, 0x00, 0x00, 0x00,
        0x03, 0x00, 0x00, 0x00, 0x01, 0x01, 0x01, 0x01]
      = Except.ok (SszValue.struct [SszValue.bool true,
          SszValue.seq [SszValue.uint 1, SszValue.uint 1, SszValue.uint 1, SszValue.uint 1],
          SszValue.seq [SszValue.uint 2, SszValue.uint 2, SszValue.uint 2, SszValue.uint 2,
            SszValue.uint 0],
          SszValue.uint 3]) :=
  ⟨rfl,
   (C7_mixed_struct_decoding testEngine rfl true [1, 1, 1, 1] [2, 2, 2, 2, 0] 3
      (by decide) rfl (by decide) (by decide)).2.2⟩

/-- C9 (two-level offset decoding): with the fast path disabled, for every value
`(f1, [(b0, l0), (b1, l1), (b2, l2)], f3)` of `struct { F1 uint8; F2
[]slug_DynStruct1` (`ssz-size:"3"`) `; F3 uint8 }` whose offsets fit in four
bytes, the encoding of the value is: `F1`, the outer 4-byte little-endian offset
6, `F3`, and then the payload of `F2`, which starts with three 4-byte
little-endian offsets relative to the payload start (12, then 12 plus the size of
each earlier element) followed by the three elements, each made of its bool
byte, its inner offset 5 and its bytes; and `UnmarshalSSZ` of that encoding
succeeds and yields the value. -/
theorem C9_two_level_offsets (d : Engine) (hd : d.NoFastSsz = true)
    (f1 f3 : Nat) (b0 b1 b2 : Bool) (l0 l1 l2 : List Nat)
    (h1 : f1 < 256) (h3 : f3 < 256)
    (hl0 : ∀ x ∈ l0, x < 256) (hl1 : ∀ x ∈ l1, x < 256) (hl2 : ∀ x ∈ l2, x < 256)
    (hsize : 12 + (5 + l0.length) + (5 + l1.length) < 2 ^ 32) :
    MarshalSSZ d twoLevelStruct
      (SszValue.struct [SszValue.uint f1,
        SszValue.seq [
          SszValue.struct [SszValue.bool b0, SszValue.seq (l0.map SszValue.uint)],
          SszValue.struct [SszValue.bool b1, SszValue.seq (l1.map SszValue.uint)],
          SszValue.struct [SszValue.bool b2, SszValue.seq (l2.map SszValue.uint)]],
        SszValue.uint f3])
      = Except.ok ([f1] ++ leEncode 4 6 ++ [f3] ++
          (leEncode 4 12 ++ leEncode 4 (12 + (5 + l0.length))
            ++ leEncode 4 (12 + (5 + l0.length) + (5 + l1.length))
            ++ ([if b0 then 1 else 0] ++ leEncode 4 5 ++ l0)
            ++ ([if b1 then 1 else 0] ++ leEncode 4 5 ++ l1)
            ++ ([if b2 then 1 else 0] ++ leEncode 4 5 ++ l2))) ∧
    UnmarshalSSZ d twoLevelStruct
      ([f1] ++ leEncode 4 6 ++ [f3] ++
        (leEncode 4 12 ++ leEncode 4 (12 + (5 + l0.length))
          ++ leEncode 4 (12 + (5 + l0.length) + (5 + l1.length))
          ++ ([if b0 then 1 else 0] ++ leEncode 4 5 ++ l0)
          ++ ([if b1 then 1 else 0] ++ leEncode 4 5 ++ l1)
          ++ ([if b2 then 1 else 0] ++ leEncode 4 5 ++ l2)))
      = Except.ok (SszValue.struct [SszValue.uint f1,
          SszValue.seq [
            SszValue.struct [SszValue.bool b0, SszValue.seq (l0.map SszValue.uint)],
            SszValue.struct [SszValue.bool b1, SszValue.seq (l1.map SszValue.uint)],
            SszValue.struct [SszValue.bool b2, SszValue.seq (l2.map SszValue.uint)]],
          SszValue.uint f3]) := by
  constructor
  · rw [MarshalSSZ_noFast d hd]
    exact marshalValue_twoLevelStruct f1 f3 b0 b1 b2 l0 l1 l2 h1 h3 hl0 hl1 hl2
  · rw [UnmarshalSSZ_noFast d hd]
    exact unmarshalGeneric_twoLevelStruct f1 f3 b0 b1 b2 l0 l1 l2 hsize

/-- Witness for C9: the row `(42, [(true,[4]), (true,[4,8,4]), (false,[])], 43)` of
the test matrix and its expected bytes
`0x2a060000002b0c000000120000001a00000001050000000401050000000408040005000000`. -/
theorem C9_two_level_offsets_witness :
    testEngine.NoFastSsz = true ∧
    UnmarshalSSZ testEngine twoLevelStruct
      [0x2a, 0x06, 0x00, 0x00, 0x00, 0x2b, 0x0c, 0x00, 0x00, 0x00, 0x12, 0x00, 0x00, 0x00,
        0x1a, 0x00, 0x00, 0x00, 0x01, 0x05, 0x00, 0x00, 0x00, 0x04, 0x01, 0x05, 0x00, 0x00,
        0x00, 0x04, 0x08, 0x04, 0x00, 0x05, 0x00, 0x00, 0x00]
      = Except.ok (SszValue.struct [SszValue.uint 42,
          SszValue.seq [
            SszValue.struct [SszValue.bool true, SszValue.seq [SszValue.uint 4]],
            SszValue.struct [SszValue.bool true,
              SszValue.seq [SszValue.uint 4, SszValue.uint 8, SszValue.uint 4]],
            SszValue.struct [SszValue.bool false, SszValue.seq []]],
          SszValue.uint 43]) :=
  ⟨rfl,
   (C9_two_level_offsets testEngine rfl 42 43 true true false [4] [4, 8, 4] []
      (by decide) (by decide) (by decide) (by decide) (by decide) (by decide)).2⟩


end dynssz
